import Mathlib

/-!
Verification of `download-model.py`, a one-shot script that downloads a
sentence-embedding model, converts it to ONNX via an external library,
and writes the model plus tokenizer files into the directory `models`.

Shallow embedding: the filesystem state relevant to the script is the
status of the path `models` (absent, a directory, or a regular file)
together with the list of file names inside that directory.  The external
library calls (`ORTModelForFeatureExtraction.from_pretrained`,
`AutoTokenizer.from_pretrained`, `save_pretrained`) are modelled by an
environment recording whether each call succeeds and which file names the
two save calls write.  `main` is embedded as `mainRun`, a function from
the environment and initial filesystem to an outcome: an `Except` result
(an uncaught exception aborts the run), the final filesystem, and a trace
of the effects performed, in order.
-/

namespace DownloadModel

/-- Status of the path `models` before/after the run: it may not exist,
exist as a directory, or exist as a regular (non-directory) file. -/
inductive PathState where
  | absent
  | isDir
  | isFile
deriving Repr, DecidableEq

/-- The filesystem state the script can observe: the status of the path
`models` and the names of the files inside that directory (empty when the
directory does not exist). -/
structure FS where
  modelsPath : PathState
  files : List String
deriving Repr, DecidableEq

/-- `MODEL_NAME = "sentence-transformers/all-MiniLM-L6-v2"` (line 14). -/
def MODEL_NAME : String := "sentence-transformers/all-MiniLM-L6-v2"

/-- `OUTPUT_DIR = Path("models")` (line 15). -/
def OUTPUT_DIR : String := "models"

/-- `Path` division: `OUTPUT_DIR / f` renders as `"models/" ++ f`. -/
def pathJoin (d f : String) : String := d ++ "/" ++ f

/-- `OUTPUT_DIR.glob("*.onnx")` matches exactly the file names ending in
`.onnx` (pathlib glob uses fnmatch semantics; `*` also matches the empty
string and a leading dot). -/
def isOnnx (s : String) : Bool := List.isSuffixOf ".onnx".data s.data

/-- Writing a file named `a` into a directory listing `l`: if the name is
already present the content is overwritten and the listing is unchanged,
otherwise the name is appended. -/
def addFile (l : List String) (a : String) : List String :=
  if a ∈ l then l else l ++ [a]

/-- `OUTPUT_DIR.mkdir(exist_ok=True)` (line 21): raises `FileExistsError`
when the path exists as a non-directory, is a no-op when the directory
already exists, and otherwise creates the (empty) directory. -/
def mkdirExistOk (fs : FS) : Except String FS :=
  match fs.modelsPath with
  | PathState.isFile => Except.error "FileExistsError"
  | PathState.isDir => Except.ok fs
  | PathState.absent => Except.ok { fs with modelsPath := PathState.isDir }

/-- A `save_pretrained(OUTPUT_DIR)` call writing the given file names. -/
def writeFiles (fs : FS) (ns : List String) : FS :=
  { fs with files := ns.foldl addFile fs.files }

/-- Lines 40–45 at the level of the directory listing: if `model.onnx`
is absent, rename the first `glob("*.onnx")` match (iteration order =
listing order) to `model.onnx`, then break. -/
def renameFiles (l : List String) : List String :=
  if "model.onnx" ∈ l then l
  else
    match (l.filter isOnnx).head? with
    | none => l
    | some f => addFile (l.erase f) "model.onnx"

/-- The rename step (lines 40–45) as a filesystem transformer. -/
def renameStep (fs : FS) : FS := { fs with files := renameFiles fs.files }

/-- Behaviour of the external library calls during one run: whether each
call succeeds, and which file names the two `save_pretrained` calls write
into the output directory. -/
structure Env where
  exportOk : Bool
  tokenizerOk : Bool
  modelSaveOk : Bool
  modelSaveFiles : List String
  tokenizerSaveOk : Bool
  tokenizerSaveFiles : List String
deriving Repr, DecidableEq

/-- The observable effects `main` performs, in order. -/
inductive Event where
  | printMsg (s : String)
  | mkdirEvt
  | exportModel
  | downloadTokenizer
  | saveModel
  | renameEvt
  | saveTokenizer
deriving Repr, DecidableEq

/-- Events that write file content into the output directory. -/
def Event.isWrite : Event → Bool
  | Event.saveModel => true
  | Event.renameEvt => true
  | Event.saveTokenizer => true
  | _ => false

/-- Outcome of one run of `main`: the result (`Except.error` = an
uncaught exception aborted the script), the final filesystem, and the
trace of effects performed. -/
structure RunOutcome where
  result : Except String Unit
  fs : FS
  trace : List Event
deriving Repr

/-- The body of `main` (lines 17–53).  Each library call emits its event
when attempted; a failing call aborts the run with an error, exactly as
an uncaught Python exception would, performing no further effects. -/
def mainRun (env : Env) (fs0 : FS) : RunOutcome :=
  let tr0 := [Event.printMsg ("Downloading " ++ MODEL_NAME ++ "...")]
  match mkdirExistOk fs0 with
  | Except.error e => ⟨Except.error e, fs0, tr0⟩
  | Except.ok fs1 =>
    let tr1 := tr0 ++ [Event.mkdirEvt,
      Event.printMsg "Converting to ONNX format...", Event.exportModel]
    if env.exportOk then
      let tr2 := tr1 ++ [Event.printMsg "Downloading tokenizer...",
        Event.downloadTokenizer]
      if env.tokenizerOk then
        let tr3 := tr2 ++ [Event.saveModel]
        if env.modelSaveOk then
          let fs2 := writeFiles fs1 env.modelSaveFiles
          let fs3 := renameStep fs2
          let tr4 := tr3 ++ [Event.renameEvt, Event.saveTokenizer]
          if env.tokenizerSaveOk then
            let fs4 := writeFiles fs3 env.tokenizerSaveFiles
            ⟨Except.ok (), fs4, tr4 ++
              [Event.printMsg "\n✅ Model downloaded successfully!",
               Event.printMsg ("   Model: " ++ pathJoin OUTPUT_DIR "model.onnx"),
               Event.printMsg ("   Tokenizer: " ++ pathJoin OUTPUT_DIR "tokenizer.json"),
               Event.printMsg "\nYou can now run: cargo run"]⟩
          else ⟨Except.error "tokenizer save failed", fs3, tr4⟩
        else ⟨Except.error "model save failed", fs1, tr3⟩
      else ⟨Except.error "tokenizer download failed", fs1, tr2⟩
    else ⟨Except.error "model export failed", fs1, tr1⟩

/-- The effect trace of a run in which every step succeeds. -/
def fullTrace : List Event :=
  [Event.printMsg ("Downloading " ++ MODEL_NAME ++ "..."),
   Event.mkdirEvt,
   Event.printMsg "Converting to ONNX format...",
   Event.exportModel,
   Event.printMsg "Downloading tokenizer...",
   Event.downloadTokenizer,
   Event.saveModel,
   Event.renameEvt,
   Event.saveTokenizer,
   Event.printMsg "\n✅ Model downloaded successfully!",
   Event.printMsg ("   Model: " ++ pathJoin OUTPUT_DIR "model.onnx"),
   Event.printMsg ("   Tokenizer: " ++ pathJoin OUTPUT_DIR "tokenizer.json"),
   Event.printMsg "\nYou can now run: cargo run"]

/-- Initial state: nothing at the path `models`. -/
def fsEmpty : FS := ⟨PathState.absent, []⟩

/-- Every call succeeds and the library writes the expected file names. -/
def envAllOk : Env := ⟨true, true, true, ["model.onnx", "config.json"],
  true, ["tokenizer.json"]⟩

/-- The model save produces two `.onnx` files. -/
def envTwoOnnx : Env := ⟨true, true, true, ["model.onnx", "extra.onnx"],
  true, ["tokenizer.json"]⟩

/-- The model save produces no `.onnx` file at all. -/
def envNoOnnx : Env := ⟨true, true, true, ["config.json"],
  true, ["tokenizer.json", "tokenizer_config.json"]⟩

/-- The model save produces a single `.onnx` file under an unexpected
name. -/
def envRenamed : Env := ⟨true, true, true, ["pytorch_model.onnx", "config.json"],
  true, ["tokenizer.json"]⟩

/-- The model export call fails (e.g. the model hub is unreachable). -/
def envExportFail : Env := ⟨false, true, true, [], true, []⟩

/-- Success of a run, as a boolean. -/
def runOk (r : RunOutcome) : Bool :=
  match r.result with
  | Except.ok _ => true
  | Except.error _ => false

theorem mem_addFile {l : List String} {a b : String} :
    b ∈ addFile l a ↔ b ∈ l ∨ b = a := by
  unfold addFile
  by_cases h : a ∈ l
  · rw [if_pos h]
    constructor
    · exact Or.inl
    · rintro (hb | rfl)
      · exact hb
      · exact h
  · rw [if_neg h]
    simp

theorem self_mem_addFile (l : List String) (a : String) : a ∈ addFile l a :=
  mem_addFile.mpr (Or.inr rfl)

theorem nodup_addFile {l : List String} (h : l.Nodup) (a : String) :
    (addFile l a).Nodup := by
  unfold addFile
  by_cases ha : a ∈ l
  · rwa [if_pos ha]
  · rw [if_neg ha]
    simp [List.nodup_append, h, ha]

theorem mem_foldl_addFile {ns l : List String} {b : String} :
    b ∈ ns.foldl addFile l ↔ b ∈ l ∨ b ∈ ns := by
  induction ns generalizing l with
  | nil => simp
  | cons n ns ih =>
    rw [List.foldl_cons, ih, mem_addFile, List.mem_cons]
    tauto

theorem nodup_foldl_addFile {ns l : List String} (h : l.Nodup) :
    (ns.foldl addFile l).Nodup := by
  induction ns generalizing l with
  | nil => simpa
  | cons n ns ih => exact ih (nodup_addFile h n)

theorem filter_eq_single {l : List String} {p : String → Bool} {m : String}
    (hnd : l.Nodup) (hm : m ∈ l) (hpm : p m = true)
    (huniq : ∀ g ∈ l, p g = true → g = m) : l.filter p = [m] := by
  have hmf : m ∈ l.filter p := List.mem_filter.mpr ⟨hm, hpm⟩
  have hndf : (l.filter p).Nodup := hnd.filter p
  have hall : ∀ x ∈ l.filter p, x = m := fun x hx =>
    huniq x (List.mem_filter.mp hx).1 (List.mem_filter.mp hx).2
  cases hf : l.filter p with
  | nil => rw [hf] at hmf; cases hmf
  | cons x t =>
    rw [hf] at hall hndf
    have hx : x = m := hall x (List.mem_cons_self x t)
    subst hx
    cases t with
    | nil => rfl
    | cons y t2 =>
      have hy : y = x := hall y (by simp)
      subst hy
      rw [List.nodup_cons] at hndf
      exact absurd (List.mem_cons_self y t2) hndf.1

/-- A run in which every step succeeds: explicit outcome. -/
theorem mainRun_ok (env : Env) (fs0 : FS)
    (hp : fs0.modelsPath ≠ PathState.isFile)
    (he : env.exportOk = true) (ht : env.tokenizerOk = true)
    (hms : env.modelSaveOk = true) (hts : env.tokenizerSaveOk = true) :
    mainRun env fs0 = ⟨Except.ok (),
      ⟨PathState.isDir,
        env.tokenizerSaveFiles.foldl addFile
          (renameFiles (env.modelSaveFiles.foldl addFile fs0.files))⟩,
      fullTrace⟩ := by
  rcases fs0 with ⟨p, fl⟩
  cases p
  · simp [mainRun, mkdirExistOk, he, ht, hms, hts, writeFiles, renameStep, fullTrace]
  · simp [mainRun, mkdirExistOk, he, ht, hms, hts, writeFiles, renameStep, fullTrace]
  · exact absurd rfl hp

/-- On a successful run the effect trace is exactly `fullTrace`. -/
theorem mainRun_trace_ok (env : Env) (fs0 : FS)
    (h : runOk (mainRun env fs0) = true) :
    (mainRun env fs0).trace = fullTrace := by
  rcases env with ⟨eo, tko, mso, msf, tso, tsf⟩
  rcases fs0 with ⟨p, fl⟩
  cases p <;> cases eo <;> cases tko <;> cases mso <;> cases tso <;>
    first
      | rfl
      | exact Bool.noConfusion h

/-- The effect trace of any run is an initial segment of `fullTrace`. -/
theorem mainRun_trace_pre (env : Env) (fs0 : FS) :
    ∃ rest, (mainRun env fs0).trace ++ rest = fullTrace := by
  rcases env with ⟨eo, tko, mso, msf, tso, tsf⟩
  rcases fs0 with ⟨p, fl⟩
  cases p <;> cases eo <;> cases tko <;> cases mso <;> cases tso <;>
    exact ⟨_, rfl⟩

/-- If a property holds along `takeWhile` of a longer list, it holds
along `takeWhile` of any initial segment. -/
theorem all_takeWhile_of_append {α : Type} (p q : α → Bool) (l rest : List α)
    (h : ((l ++ rest).takeWhile p).all q = true) :
    (l.takeWhile p).all q = true := by
  induction l with
  | nil => rfl
  | cons a l ih =>
    rw [List.cons_append, List.takeWhile_cons] at h
    rw [List.takeWhile_cons]
    cases hp : p a with
    | false => rfl
    | true =>
      rw [hp] at h
      have h2 : (q a && ((l ++ rest).takeWhile p).all q) = true := h
      rw [Bool.and_eq_true] at h2
      show (q a && (l.takeWhile p).all q) = true
      rw [Bool.and_eq_true]
      exact ⟨h2.1, ih h2.2⟩

/-- C1: if after the model save step `models/model.onnx` does not exist
but at least one `.onnx` file is present in the output directory, then
after the rename step a file named `model.onnx` exists there. -/
theorem rename_fallback_creates_expected (fs : FS)
    (h1 : "model.onnx" ∉ fs.files) (f : String)
    (hf : f ∈ fs.files) (hx : isOnnx f = true) :
    "model.onnx" ∈ (renameStep fs).files := by
  have hmem : f ∈ fs.files.filter isOnnx := List.mem_filter.mpr ⟨hf, hx⟩
  show "model.onnx" ∈ renameFiles fs.files
  unfold renameFiles
  rw [if_neg h1]
  cases hfil : (fs.files.filter isOnnx).head? with
  | none =>
    rw [List.head?_eq_none_iff] at hfil
    rw [hfil] at hmem
    cases hmem
  | some g => exact self_mem_addFile _ _

theorem rename_fallback_creates_expected_witness :
    "model.onnx" ∈ (renameStep ⟨PathState.isDir, ["weird.onnx", "config.json"]⟩).files :=
  rename_fallback_creates_expected ⟨PathState.isDir, ["weird.onnx", "config.json"]⟩
    (by decide) "weird.onnx" (by decide) (by decide)

/-- C2 counterexample: when the model save step writes two `.onnx` files
(`model.onnx` and `extra.onnx`), the run succeeds but the output
directory keeps a second `.onnx` file, so it does not contain exactly one
file recognizable as the model artifact. -/
theorem two_onnx_counterexample :
    runOk (mainRun envTwoOnnx fsEmpty) = true ∧
    "model.onnx" ∈ (mainRun envTwoOnnx fsEmpty).fs.files ∧
    "extra.onnx" ∈ (mainRun envTwoOnnx fsEmpty).fs.files ∧
    isOnnx "extra.onnx" = true ∧ "extra.onnx" ≠ "model.onnx" := by
  decide

/-- C2 (amended): after a successful run starting from a state whose
directory listing is duplicate-free and holds no `.onnx` file, in which
the model save step writes exactly one `.onnx` file name and the
tokenizer save writes none, the output directory contains `model.onnx`,
it is the only `.onnx` file there, and all tokenizer files are present. -/
theorem single_onnx_after_success (env : Env) (fs0 : FS)
    (hp : fs0.modelsPath ≠ PathState.isFile) (hnd : fs0.files.Nodup)
    (h0 : ∀ g ∈ fs0.files, isOnnx g = false)
    (m : String) (hm : m ∈ env.modelSaveFiles) (hmo : isOnnx m = true)
    (huniq : ∀ g ∈ env.modelSaveFiles, isOnnx g = true → g = m)
    (htok : ∀ g ∈ env.tokenizerSaveFiles, isOnnx g = false)
    (he : env.exportOk = true) (ht : env.tokenizerOk = true)
    (hms : env.modelSaveOk = true) (hts : env.tokenizerSaveOk = true) :
    runOk (mainRun env fs0) = true ∧
    "model.onnx" ∈ (mainRun env fs0).fs.files ∧
    (∀ g ∈ (mainRun env fs0).fs.files, isOnnx g = true → g = "model.onnx") ∧
    (∀ t ∈ env.tokenizerSaveFiles, t ∈ (mainRun env fs0).fs.files) := by
  rw [mainRun_ok env fs0 hp he ht hms hts]
  set F1 := env.modelSaveFiles.foldl addFile fs0.files with hF1def
  have hF1nd : F1.Nodup := nodup_foldl_addFile hnd
  have hF1m : m ∈ F1 := mem_foldl_addFile.mpr (Or.inr hm)
  have hF1onnx : ∀ g ∈ F1, isOnnx g = true → g = m := by
    intro g hg hgo
    rcases mem_foldl_addFile.mp hg with hg0 | hgs
    · rw [h0 g hg0] at hgo
      cases hgo
    · exact huniq g hgs hgo
  have key : "model.onnx" ∈ renameFiles F1 ∧
      ∀ g ∈ renameFiles F1, isOnnx g = true → g = "model.onnx" := by
    by_cases hin : "model.onnx" ∈ F1
    · have hr : renameFiles F1 = F1 := by unfold renameFiles; rw [if_pos hin]
      rw [hr]
      have hmm : m = "model.onnx" := (hF1onnx _ hin (by decide)).symm
      exact ⟨hin, fun g hg hgo => (hF1onnx g hg hgo).trans hmm⟩
    · have hfil : F1.filter isOnnx = [m] := filter_eq_single hF1nd hF1m hmo hF1onnx
      have hr : renameFiles F1 = addFile (F1.erase m) "model.onnx" := by
        unfold renameFiles
        rw [if_neg hin, hfil]
        rfl
      rw [hr]
      refine ⟨self_mem_addFile _ _, ?_⟩
      intro g hg hgo
      rcases mem_addFile.mp hg with hge | hgeq
      · have hgF1 : g ∈ F1 := List.mem_of_mem_erase hge
        have hgm : g = m := hF1onnx g hgF1 hgo
        subst hgm
        rw [List.Nodup.mem_erase_iff hF1nd] at hge
        exact absurd rfl hge.1
      · exact hgeq
  rcases key with ⟨kmem, konnx⟩
  refine ⟨rfl, ?_, ?_, ?_⟩
  · exact mem_foldl_addFile.mpr (Or.inl kmem)
  · intro g hg hgo
    rcases mem_foldl_addFile.mp hg with hgr | hgt
    · exact konnx g hgr hgo
    · rw [htok g hgt] at hgo
      cases hgo
  · intro t htmem
    exact mem_foldl_addFile.mpr (Or.inr htmem)

theorem single_onnx_after_success_witness :
    runOk (mainRun envRenamed fsEmpty) = true ∧
    "model.onnx" ∈ (mainRun envRenamed fsEmpty).fs.files ∧
    (∀ g ∈ (mainRun envRenamed fsEmpty).fs.files, isOnnx g = true → g = "model.onnx") ∧
    (∀ t ∈ envRenamed.tokenizerSaveFiles, t ∈ (mainRun envRenamed fsEmpty).fs.files) :=
  single_onnx_after_success envRenamed fsEmpty (by decide) (by decide) (by decide)
    "pytorch_model.onnx" (by decide) (by decide) (by decide) (by decide)
    rfl rfl rfl rfl

/-- C3: when the model export call fails, the run aborts with an error
and the output directory listing is exactly what it was initially — no
model or tokenizer file has been written. -/
theorem export_failure_writes_nothing (env : Env) (fs0 : FS)
    (h : env.exportOk = false) :
    runOk (mainRun env fs0) = false ∧ (mainRun env fs0).fs.files = fs0.files := by
  rcases env with ⟨eo, tko, mso, msf, tso, tsf⟩
  subst h
  rcases fs0 with ⟨p, fl⟩
  cases p <;> simp [mainRun, mkdirExistOk, runOk]

theorem export_failure_writes_nothing_witness :
    runOk (mainRun envExportFail fsEmpty) = false ∧
    (mainRun envExportFail fsEmpty).fs.files = fsEmpty.files :=
  export_failure_writes_nothing envExportFail fsEmpty rfl

/-- C4: in every run, no write effect (model save, rename, tokenizer
save) occurs before the directory-creation effect, and whenever the
directory-creation step succeeds the output directory exists. -/
theorem mkdir_precedes_writes (env : Env) (fs0 : FS) :
    ((mainRun env fs0).trace.takeWhile
        (fun e => !(e == Event.mkdirEvt))).all (fun e => ! e.isWrite) = true ∧
    (∀ fs1, mkdirExistOk fs0 = Except.ok fs1 → fs1.modelsPath = PathState.isDir) := by
  constructor
  · obtain ⟨rest, hres⟩ := mainRun_trace_pre env fs0
    have hfull : ((fullTrace.takeWhile (fun e => !(e == Event.mkdirEvt))).all
        (fun e => ! e.isWrite)) = true := by decide
    rw [← hres] at hfull
    exact all_takeWhile_of_append _ _ _ rest hfull
  · intro fs1 h
    rcases fs0 with ⟨p, fl⟩
    cases p
    · simp only [mkdirExistOk] at h
      injection h with h2
      rw [← h2]
    · simp only [mkdirExistOk] at h
      injection h with h2
      rw [← h2]
    · simp only [mkdirExistOk] at h
      exact Except.noConfusion h

theorem mkdir_precedes_writes_witness :
    ((mainRun envAllOk fsEmpty).trace.takeWhile
        (fun e => !(e == Event.mkdirEvt))).all (fun e => ! e.isWrite) = true ∧
    FS.modelsPath ⟨PathState.isDir, []⟩ = PathState.isDir :=
  ⟨(mkdir_precedes_writes envAllOk fsEmpty).1,
   (mkdir_precedes_writes envAllOk fsEmpty).2 ⟨PathState.isDir, []⟩ rfl⟩

/-- C5: if `model.onnx` is already present the rename step changes
nothing at all; and in every case, any file that loses its name in the
rename step is the first `glob("*.onnx")` match, so at most one file is
renamed and every other `.onnx` file keeps its name. -/
theorem rename_noop_and_frame (fs : FS) :
    ("model.onnx" ∈ fs.files → renameStep fs = fs) ∧
    (∀ g ∈ fs.files, g ∉ (renameStep fs).files →
      (fs.files.filter isOnnx).head? = some g) := by
  constructor
  · intro hin
    have h2 : renameFiles fs.files = fs.files := by
      unfold renameFiles; rw [if_pos hin]
    show ({ fs with files := renameFiles fs.files } : FS) = fs
    rw [h2]
  · intro g hg hng
    by_cases hin : "model.onnx" ∈ fs.files
    · have h2 : renameFiles fs.files = fs.files := by
        unfold renameFiles; rw [if_pos hin]
      exact absurd hg (by simpa [renameStep, h2] using hng)
    · cases hfil : (fs.files.filter isOnnx).head? with
      | none =>
        have h2 : renameFiles fs.files = fs.files := by
          unfold renameFiles; rw [if_neg hin, hfil]
        exact absurd hg (by simpa [renameStep, h2] using hng)
      | some f =>
        have hrf : renameFiles fs.files = addFile (fs.files.erase f) "model.onnx" := by
          unfold renameFiles; rw [if_neg hin, hfil]
        have hng2 : g ∉ addFile (fs.files.erase f) "model.onnx" := by
          simpa [renameStep, hrf] using hng
        have hne : g ∉ fs.files.erase f := fun hc => hng2 (mem_addFile.mpr (Or.inl hc))
        have hgf : g = f := by
          by_contra hc
          exact hne ((List.mem_erase_of_ne hc).mpr hg)
        rw [hgf]

theorem rename_noop_and_frame_witness :
    renameStep ⟨PathState.isDir, ["model.onnx", "extra.onnx"]⟩ =
      ⟨PathState.isDir, ["model.onnx", "extra.onnx"]⟩ :=
  (rename_noop_and_frame ⟨PathState.isDir, ["model.onnx", "extra.onnx"]⟩).1 (by decide)

/-- C6: the directory-creation step creates the output directory when it
is absent and leaves the state entirely untouched, without error, when
the directory already exists. -/
theorem mkdir_idempotent (fs : FS) :
    (fs.modelsPath = PathState.absent →
      mkdirExistOk fs = Except.ok { fs with modelsPath := PathState.isDir }) ∧
    (fs.modelsPath = PathState.isDir → mkdirExistOk fs = Except.ok fs) := by
  rcases fs with ⟨p, fl⟩
  cases p <;> simp [mkdirExistOk]

theorem mkdir_idempotent_witness :
    mkdirExistOk ⟨PathState.isDir, ["model.onnx"]⟩ =
      Except.ok ⟨PathState.isDir, ["model.onnx"]⟩ :=
  (mkdir_idempotent ⟨PathState.isDir, ["model.onnx"]⟩).2 rfl

/-- C7: the effects of `main` always occur in the fixed order of
`fullTrace` (every trace is an initial segment of it), and a successful
run performs exactly that sequence: directory creation, model export,
tokenizer download, model save, rename, tokenizer save, completion
messages. -/
theorem effects_in_fixed_order (env : Env) (fs0 : FS) :
    (∃ rest, (mainRun env fs0).trace ++ rest = fullTrace) ∧
    (runOk (mainRun env fs0) = true → (mainRun env fs0).trace = fullTrace) :=
  ⟨mainRun_trace_pre env fs0, mainRun_trace_ok env fs0⟩

theorem effects_in_fixed_order_witness :
    (mainRun envAllOk fsEmpty).trace = fullTrace :=
  (effects_in_fixed_order envAllOk fsEmpty).2 rfl

/-- C8: a run succeeds exactly when the directory step and all four
library calls succeed — any failure aborts the run — and no effect is
ever attempted twice (no retry). -/
theorem failures_abort_no_retry (env : Env) (fs0 : FS) :
    (runOk (mainRun env fs0) = true ↔
      (fs0.modelsPath ≠ PathState.isFile ∧ env.exportOk = true ∧
        env.tokenizerOk = true ∧ env.modelSaveOk = true ∧
        env.tokenizerSaveOk = true)) ∧
    (∀ e, (mainRun env fs0).trace.count e ≤ 1) := by
  have hnd : (mainRun env fs0).trace.Nodup := by
    obtain ⟨rest, hres⟩ := mainRun_trace_pre env fs0
    have hfull : fullTrace.Nodup := by decide
    rw [← hres] at hfull
    exact List.Nodup.sublist (List.sublist_append_left _ rest) hfull
  refine ⟨?_, fun e => List.nodup_iff_count_le_one.mp hnd e⟩
  rcases env with ⟨eo, tko, mso, msf, tso, tsf⟩
  rcases fs0 with ⟨p, fl⟩
  cases p <;> cases eo <;> cases tko <;> cases mso <;> cases tso <;>
    simp [mainRun, mkdirExistOk, runOk]

theorem failures_abort_no_retry_witness :
    runOk (mainRun envAllOk fsEmpty) = true :=
  (failures_abort_no_retry envAllOk fsEmpty).1.mpr
    ⟨by decide, rfl, rfl, rfl, rfl⟩

/-- C9: every successful run prints the success path message, and there
is a successful run (the model save wrote no `.onnx` file) after which no
`.onnx` file exists at all — success is never verified. -/
theorem success_message_unconditional :
    (∀ env fs0, runOk (mainRun env fs0) = true →
      Event.printMsg ("   Model: " ++ pathJoin OUTPUT_DIR "model.onnx") ∈
        (mainRun env fs0).trace) ∧
    (runOk (mainRun envNoOnnx fsEmpty) = true ∧
      ∀ g ∈ (mainRun envNoOnnx fsEmpty).fs.files, isOnnx g = false) := by
  constructor
  · intro env fs0 h
    rw [mainRun_trace_ok env fs0 h]
    decide
  · decide

theorem success_message_unconditional_witness :
    Event.printMsg ("   Model: " ++ pathJoin OUTPUT_DIR "model.onnx") ∈
      (mainRun envTwoOnnx fsEmpty).trace :=
  success_message_unconditional.1 envTwoOnnx fsEmpty rfl

/-- C10: when the path `models` exists as a regular file, the
directory-creation step raises, the run aborts with only the first
status message printed, and the filesystem is untouched — no download or
write occurs. -/
theorem models_as_file_aborts_early (env : Env) (fs0 : FS)
    (h : fs0.modelsPath = PathState.isFile) :
    runOk (mainRun env fs0) = false ∧ (mainRun env fs0).fs = fs0 ∧
    (mainRun env fs0).trace =
      [Event.printMsg ("Downloading " ++ MODEL_NAME ++ "...")] := by
  rcases fs0 with ⟨p, fl⟩
  cases h
  exact ⟨rfl, rfl, rfl⟩

theorem models_as_file_aborts_early_witness :
    runOk (mainRun envAllOk ⟨PathState.isFile, []⟩) = false ∧
    (mainRun envAllOk ⟨PathState.isFile, []⟩).fs = ⟨PathState.isFile, []⟩ ∧
    (mainRun envAllOk ⟨PathState.isFile, []⟩).trace =
      [Event.printMsg ("Downloading " ++ MODEL_NAME ++ "...")] :=
  models_as_file_aborts_early envAllOk ⟨PathState.isFile, []⟩ rfl

end DownloadModel
